import Mathlib

/-!
# Verification of the simulated trading pipeline

Shallow embedding of `models.py`, `engine.py` and the per-signal loop of
`backtest_runner.py` from the FINM32500 trading-competition baseline
repository, together with theorems settling the specification claims.

Modelling conventions:
* Python `float` values (prices, cash, timestamps, random draws) are modelled
  as exact rationals `ℚ`; integer quantities are `ℤ` as in the source.
* Random draws (`random.random()`, `random.randint`, `random.gauss`) are
  explicit inputs to the functions that consume them.
* Python exceptions are modelled with `Except`: a function that can raise
  returns `Except PyExc _`.
* `random.gauss(0, sigma)` is modelled as `sigma * gauss_draw` where
  `gauss_draw` is the standard-normal sample given as input.
-/

/-- Order side; the source uses the strings `"BUY"` / `"SELL"`. -/
inductive Side
  | BUY
  | SELL
deriving DecidableEq, Repr

/-- The `OrderStatus` enum from `models.py`. -/
inductive OrderStatus
  | NEW
  | PENDING
  | FILLED
  | REJECTED
  | FAILED
  | CANCELED
deriving DecidableEq, Repr

/-- Python exceptions the engine can raise: `OrderError` and `ExecutionError`
from `models.py`, `ValueError` as raised by `random.randint` on an empty
range, and a catch-all for any other exception. -/
inductive PyExc
  | orderError (msg : String)
  | executionError (msg : String)
  | valueError (msg : String)
  | otherError (msg : String)
deriving DecidableEq, Repr

/-- The message carried by an exception (Python `str(e)`). -/
def PyExc.msg : PyExc → String
  | .orderError m => m
  | .executionError m => m
  | .valueError m => m
  | .otherError m => m

/-- The mutable `Order` dataclass from `models.py`.  The `order_type` and
`order_id` fields (constant `"LIMIT"` and a wall-clock id string) play no
role in the engine's logic and are omitted. -/
structure Order where
  symbol : String
  quantity : ℤ
  price : ℚ
  side : Side := .BUY
  status : OrderStatus := .NEW
  filled_quantity : ℤ := 0
  reason : String := ""
deriving DecidableEq, Repr

/-- `Order.validate` (`models.py` lines 35-39): raises `OrderError` on a
non-positive quantity or price. -/
def Order.validate (o : Order) : Except PyExc Unit :=
  if o.quantity ≤ 0 then .error (.orderError "Order quantity must be strictly positive")
  else if o.price ≤ 0 then .error (.orderError "Order price must be strictly positive")
  else .ok ()

/-- `Order.mark_filled` (`models.py` lines 41-43): accumulates the filled
quantity and recomputes the status.  The fill price argument is accepted and
ignored exactly as in the source. -/
def Order.mark_filled (o : Order) (filled_qty : ℤ) (_fill_price : ℚ) : Order :=
  { o with
    filled_quantity := o.filled_quantity + filled_qty
    status := if o.filled_quantity + filled_qty = o.quantity then .FILLED else .PENDING }

/-- `Order.mark_failed` (`models.py` lines 45-47). -/
def Order.mark_failed (o : Order) (reason : String) : Order :=
  { o with status := .FAILED, reason := reason }

/-- `Order.mark_rejected` (`models.py` lines 49-51). -/
def Order.mark_rejected (o : Order) (reason : String) : Order :=
  { o with status := .REJECTED, reason := reason }

/-- Python `dict.get(k, dflt)` on a string-keyed association list. -/
def dictGet {α : Type} : List (String × α) → String → α → α
  | [], _, dflt => dflt
  | (k', v) :: rest, k, dflt => if k' = k then v else dictGet rest k dflt

/-- Python `d[k] = v` on a string-keyed association list: overwrite the
existing binding or append a new one. -/
def dictSet {α : Type} : List (String × α) → String → α → List (String × α)
  | [], k, v => [(k, v)]
  | (k', v') :: rest, k, v =>
      if k' = k then (k, v) :: rest else (k', v') :: dictSet rest k v

/-- The `OrderManager` state (`engine.py` lines 76-82).  `capital` is set by
the constructor and is never written afterwards anywhere in the repository;
`positions` is the risk-ledger mirror written by `Portfolio.update_from_fill`.
`MAX_POSITION` is always `500` (`engine.py` line 82 assigns the literal), so
the interpolated reason strings of the position checks are written out
literally below. -/
structure OrderManager where
  capital : ℚ
  orders_timestamps : List ℚ := []
  MAX_ORDERS_PER_MIN : ℕ := 50
  positions : List (String × ℚ) := []
  MAX_POSITION : ℚ := 500
deriving DecidableEq, Repr

/-- The lazy pruning of the rate-limit window (`engine.py` lines 102-104):
timestamps strictly older than 60 seconds are popped from the front. -/
def prunedTs (om : OrderManager) (now : ℚ) : List ℚ :=
  om.orders_timestamps.dropWhile (fun t => decide (t < now - 60))

/-- `OrderManager.validate_order` (`engine.py` lines 84-123).  `now` is the
value of `time.time()` at the call.  Returns the updated manager state, the
(possibly rejected) order, and the boolean result. -/
def OrderManager.validate_order (om : OrderManager) (o : Order) (now : ℚ) :
    OrderManager × Order × Bool :=
  match o.validate with
  | .error e => (om, o.mark_rejected e.msg, false)
  | .ok _ =>
    if o.side = .BUY ∧ (o.quantity : ℚ) * o.price > om.capital then
      (om, o.mark_rejected "Insufficient capital.", false)
    else
      let ts := prunedTs om now
      if om.MAX_ORDERS_PER_MIN ≤ ts.length then
        ({ om with orders_timestamps := ts }, o.mark_rejected "Rate limit exceeded.", false)
      else
        let current_pos := dictGet om.positions o.symbol 0
        if o.side = .BUY ∧ current_pos + (o.quantity : ℚ) > om.MAX_POSITION then
          ({ om with orders_timestamps := ts },
            o.mark_rejected "Position limit (500) exceeded.", false)
        else if o.side = .SELL ∧ current_pos - (o.quantity : ℚ) < -om.MAX_POSITION then
          ({ om with orders_timestamps := ts },
            o.mark_rejected "Short position limit (-500) exceeded.", false)
        else
          ({ om with orders_timestamps := ts ++ [now] }, o, true)

/-- The independent random draws consumed by one call to
`MatchingEngine.simulate_execution`, in the order the source draws them:
the failure draw, the full-fill draw, the draw compared against the
partial-fill probability, the `randint` draw and the Gaussian slippage
sample. -/
structure Draws where
  fail_draw : ℚ
  full_draw : ℚ
  liq_draw : ℚ
  randint_draw : ℕ
  gauss_draw : ℚ
deriving DecidableEq, Repr

/-- `random.randint(a, b)`: a uniform integer in the inclusive range
`[a, b]`; raises `ValueError` when the range is empty (`b < a`).  The
explicit draw is mapped onto the range by reduction modulo its size. -/
def pyRandint (a b : ℤ) (draw : ℕ) : Except PyExc ℤ :=
  if b < a then .error (.valueError "empty range for randrange")
  else .ok (a + (draw : ℤ) % (b - a + 1))

/-- Python `round(x, 2)`: rounding to two decimal places. -/
def round2 (x : ℚ) : ℚ := ((round (x * 100) : ℤ) : ℚ) / 100

/-- The `MatchingEngine` (`engine.py` lines 127-131). -/
structure MatchingEngine where
  slippage_factor : ℚ := 1 / 10000
deriving DecidableEq, Repr

/-- The common tail of the two fill branches of `simulate_execution`
(`engine.py` lines 155-162): compute the slippage-adjusted price, mark the
order filled when the quantity is positive, and return the rounded price. -/
def MatchingEngine.fillResult (me : MatchingEngine) (o : Order) (filled_qty : ℤ)
    (d : Draws) : ℚ × ℤ × Order :=
  let slippage := me.slippage_factor * d.gauss_draw
  let fill_price := o.price * (1 + slippage)
  let o' := if 0 < filled_qty then o.mark_filled filled_qty fill_price else o
  (round2 fill_price, filled_qty, o')

/-- `MatchingEngine.simulate_execution` (`engine.py` lines 133-162). -/
def MatchingEngine.simulate_execution (me : MatchingEngine) (o : Order) (d : Draws) :
    Except PyExc (ℚ × ℤ × Order) :=
  if d.fail_draw < 2 / 100 then
    .error (.executionError "Simulated execution failure (2% chance)")
  else if d.full_draw < 95 / 100 then
    .ok (me.fillResult o o.quantity d)
  else if d.liq_draw < 4 / 100 then
    match pyRandint 1 (o.quantity - 1) d.randint_draw with
    | .error e => .error e
    | .ok q => .ok (me.fillResult o q d)
  else
    .ok (0, 0, o.mark_rejected "Canceled/No liquidity.")

/-- A per-symbol position entry of the `Portfolio`
(`engine.py` line 178: `{"quantity": 0.0, "avg_price": 0.0}`). -/
structure PosEntry where
  quantity : ℚ := 0
  avg_price : ℚ := 0
deriving DecidableEq, Repr

/-- The `Portfolio` state (`engine.py` lines 169-173).  The equity-curve
list `trades` and the `om` back-pointer are handled by the pipeline
functions below. -/
structure Portfolio where
  cash : ℚ
  positions : List (String × PosEntry) := []
deriving DecidableEq, Repr

/-- `Portfolio.update_from_fill` (`engine.py` lines 175-199), including the
mirror update of the linked `OrderManager.positions` (`self.om` is always
set in the backtest pipeline). -/
def Portfolio.update_from_fill (p : Portfolio) (om : OrderManager) (o : Order)
    (fill_price : ℚ) (filled_qty : ℤ) : Portfolio × OrderManager :=
  let pos := dictGet p.positions o.symbol {}
  let cost := (filled_qty : ℚ) * fill_price
  let cash' := if o.side = .SELL then p.cash + cost else p.cash - cost
  let current_qty := pos.quantity
  let new_qty := if o.side = .BUY then current_qty + (filled_qty : ℚ)
                 else current_qty - (filled_qty : ℚ)
  let avg' :=
    if new_qty * current_qty ≥ 0 ∧ new_qty ≠ 0 then
      (pos.avg_price * current_qty + fill_price * (filled_qty : ℚ)) / new_qty
    else if new_qty = 0 then 0
    else pos.avg_price
  ({ cash := cash'
     positions := dictSet p.positions o.symbol { quantity := new_qty, avg_price := avg' } },
   { om with positions := dictSet om.positions o.symbol new_qty })

/-- `Portfolio.compute_equity` (`engine.py` lines 201-208): cash plus each
position marked at the current price, falling back to its cost basis. -/
def Portfolio.compute_equity (p : Portfolio) (current_prices : List (String × ℚ)) : ℚ :=
  p.cash + (p.positions.map
    (fun sp => sp.2.quantity * dictGet current_prices sp.1 sp.2.avg_price)).sum

/-- The audit log kept by the `Gateway`: the sequence of order snapshots
passed to `log_order`. -/
abbrev GatewayLog := List Order

/-- `Gateway.log_order`: appends the order's current snapshot to the audit
log. -/
def logOrder (gw : GatewayLog) (o : Order) : GatewayLog := gw ++ [o]

/-- One iteration of the per-signal loop of `run_backtest_simulation`
(`backtest_runner.py` lines 55-84).  Order construction is given as an
`Except` so that a fault raised while building the `Order` — caught by the
blanket `except Exception` handler with `order` still `None`, so that the
`if order:` guard skips marking and logging — is representable.
`ExecutionError` is caught by the first handler and any other exception by
the second, which prefixes the reason with `"Unknown Error: "`. -/
def processSignal (gw : GatewayLog) (om : OrderManager) (pf : Portfolio)
    (me : MatchingEngine) (now : ℚ) (construction : Except PyExc Order) (d : Draws) :
    GatewayLog × OrderManager × Portfolio :=
  match construction with
  | .error _ => (gw, om, pf)
  | .ok order =>
    let (om', o', ok) := om.validate_order order now
    if ok = false then (logOrder gw o', om', pf)
    else
      match me.simulate_execution o' d with
      | .error (.executionError msg) => (logOrder gw (o'.mark_failed msg), om', pf)
      | .error e => (logOrder gw (o'.mark_failed ("Unknown Error: " ++ e.msg)), om', pf)
      | .ok (fill_price, filled_qty, o2) =>
        let (pf', om2) :=
          if 0 < filled_qty then pf.update_from_fill om' o2 fill_price filled_qty
          else (pf, om')
        (logOrder gw o2, om2, pf')

/-- The per-signal loop folded over the signals of one observation: the
pipeline always continues with the next signal. -/
def processSignals (gw : GatewayLog) (om : OrderManager) (pf : Portfolio)
    (me : MatchingEngine) (now : ℚ) :
    List (Except PyExc Order × Draws) → GatewayLog × OrderManager × Portfolio
  | [] => (gw, om, pf)
  | (c, d) :: rest =>
    let (gw', om', pf') := processSignal gw om pf me now c d
    processSignals gw' om' pf' me now rest

/-- Sequential submission of a list of timestamped orders to the Validator,
collecting each returned order and boolean result. -/
def submitAll (om : OrderManager) : List (Order × ℚ) → OrderManager × List (Order × Bool)
  | [] => (om, [])
  | (o, t) :: rest =>
    let (om', o', ok) := om.validate_order o t
    let (omf, results) := submitAll om' rest
    (omf, (o', ok) :: results)

/-- An order passes the structural, capital and position checks of
`validate_order` against a manager state (everything except the rate limit,
whose outcome depends on the evolving timestamp window). -/
def passesNonRate (om : OrderManager) (o : Order) : Prop :=
  o.validate = .ok ()
  ∧ ¬(o.side = .BUY ∧ (o.quantity : ℚ) * o.price > om.capital)
  ∧ ¬(o.side = .BUY ∧ dictGet om.positions o.symbol 0 + (o.quantity : ℚ) > om.MAX_POSITION)
  ∧ ¬(o.side = .SELL ∧ dictGet om.positions o.symbol 0 - (o.quantity : ℚ) < -om.MAX_POSITION)

/-- A sequence of fill operations (`mark_filled` calls) applied to one
order. -/
def applyFills (o : Order) : List (ℤ × ℚ) → Order
  | [] => o
  | (q, p) :: rest => applyFills (o.mark_filled q p) rest

/-- A fill sequence is admissible for an order when every fill is positive
and no fill exceeds the quantity still unfilled when it is applied. -/
def validFillsB (o : Order) : List (ℤ × ℚ) → Bool
  | [] => true
  | (q, p) :: rest =>
    decide (0 < q) && decide (q ≤ o.quantity - o.filled_quantity)
      && validFillsB (o.mark_filled q p) rest

/-- A sequence of realized fills applied to the Accountant. -/
def applyPortfolioFills (p : Portfolio) (om : OrderManager) :
    List (Order × ℚ × ℤ) → Portfolio × OrderManager
  | [] => (p, om)
  | (o, fp, fq) :: rest =>
    let (p', om') := p.update_from_fill om o fp fq
    applyPortfolioFills p' om' rest

/-- Total cost of the BUY fills of a fill sequence. -/
def buyTotal (fills : List (Order × ℚ × ℤ)) : ℚ :=
  (fills.map (fun f => if f.1.side = .BUY then (f.2.2 : ℚ) * f.2.1 else 0)).sum

/-- Total proceeds of the SELL fills of a fill sequence. -/
def sellTotal (fills : List (Order × ℚ × ℤ)) : ℚ :=
  (fills.map (fun f => if f.1.side = .SELL then (f.2.2 : ℚ) * f.2.1 else 0)).sum

/-! ## Concrete scenario objects used in witnesses and counterexamples -/

/-- A default matching engine (`MatchingEngine()`). -/
def meDef : MatchingEngine := {}

/-- A fresh order manager with 1000 of capital (`OrderManager(1000)`). -/
def omSmall : OrderManager := { capital := 1000 }

/-- A fresh order manager with ample capital (`OrderManager(1000000)`). -/
def omBig : OrderManager := { capital := 1000000 }

/-- An order manager holding a long position of 495 AAPL shares in its
risk ledger. -/
def om495 : OrderManager := { capital := 1000000, positions := [("AAPL", 495)] }

/-- An order manager holding a short position of 495 AAPL shares in its
risk ledger. -/
def omShort495 : OrderManager := { capital := 1000000, positions := [("AAPL", -495)] }

/-- A fresh portfolio with 1000 of cash (`Portfolio(1000)`). -/
def pfSmall : Portfolio := { cash := 1000 }

/-- A portfolio long 5 AAPL shares at cost basis 100. -/
def pfLong5 : Portfolio :=
  { cash := 0, positions := [("AAPL", { quantity := 5, avg_price := 100 })] }

/-- A BUY order for 10 AAPL at 90. -/
def ordBuy10at90 : Order := { symbol := "AAPL", quantity := 10, price := 90 }

/-- A BUY order for 5 AAPL at 100. -/
def ordBuy5at100 : Order := { symbol := "AAPL", quantity := 5, price := 100 }

/-- A BUY order for 10 AAPL at 1. -/
def ordBuy10at1 : Order := { symbol := "AAPL", quantity := 10, price := 1 }

/-- A BUY order for 5 AAPL at 1. -/
def ordBuy5at1 : Order := { symbol := "AAPL", quantity := 5, price := 1 }

/-- A SELL order for 10 AAPL at 110. -/
def ordSell10at110 : Order := { symbol := "AAPL", quantity := 10, price := 110, side := .SELL }

/-- A SELL order for 10 AAPL at 1. -/
def ordSell10at1 : Order := { symbol := "AAPL", quantity := 10, price := 1, side := .SELL }

/-- A BUY order for 1 AAPL at 1. -/
def ordUnit : Order := { symbol := "AAPL", quantity := 1, price := 1 }

/-- A BUY order for 2 shares at 100. -/
def ordTwo : Order := { symbol := "AAPL", quantity := 2, price := 100 }

/-- A BUY order for 1 share at 100. -/
def ordOne : Order := { symbol := "AAPL", quantity := 1, price := 100 }

/-- Draws selecting the full-fill branch with zero slippage. -/
def drawsFull : Draws :=
  { fail_draw := 1/2, full_draw := 0, liq_draw := 0, randint_draw := 0, gauss_draw := 0 }

/-- Draws selecting the partial-fill branch with zero slippage. -/
def drawsPart : Draws :=
  { fail_draw := 1/2, full_draw := 1, liq_draw := 0, randint_draw := 0, gauss_draw := 0 }

/-- Draws selecting the no-liquidity cancellation branch. -/
def drawsCancel : Draws :=
  { fail_draw := 1/2, full_draw := 1, liq_draw := 1, randint_draw := 0, gauss_draw := 0 }

/-- Draws selecting the simulated-execution-failure branch. -/
def drawsFail : Draws :=
  { fail_draw := 0, full_draw := 0, liq_draw := 0, randint_draw := 0, gauss_draw := 0 }

/-! ## Helper lemmas -/

@[simp] theorem side_buy_eq_sell : (Side.BUY = Side.SELL) = False := by simp

@[simp] theorem side_sell_eq_buy : (Side.SELL = Side.BUY) = False := by simp

theorem prunedTs_capital (om : OrderManager) (c now : ℚ) :
    prunedTs { om with capital := c } now = prunedTs om now := rfl

theorem dictGet_dictSet {α : Type} (d : List (String × α)) (k : String) (v dflt : α) :
    dictGet (dictSet d k v) k dflt = v := by
  induction d with
  | nil => simp [dictGet, dictSet]
  | cons hd tl ih =>
    obtain ⟨k', v'⟩ := hd
    by_cases h : k' = k <;> simp [dictGet, dictSet, h, ih]

theorem validate_order_struct (om : OrderManager) (o : Order) (now : ℚ) (e : PyExc)
    (h : o.validate = .error e) :
    om.validate_order o now = (om, o.mark_rejected e.msg, false) := by
  unfold OrderManager.validate_order
  rw [h]

theorem validate_order_capital (om : OrderManager) (o : Order) (now : ℚ)
    (hv : o.validate = .ok ()) (hb : o.side = .BUY)
    (hc : (o.quantity : ℚ) * o.price > om.capital) :
    om.validate_order o now = (om, o.mark_rejected "Insufficient capital.", false) := by
  unfold OrderManager.validate_order
  rw [hv]
  simp [hb, hc]

theorem validate_order_rate (om : OrderManager) (o : Order) (now : ℚ)
    (hv : o.validate = .ok ())
    (hc : ¬(o.side = .BUY ∧ (o.quantity : ℚ) * o.price > om.capital))
    (hr : om.MAX_ORDERS_PER_MIN ≤ (prunedTs om now).length) :
    om.validate_order o now =
      ({ om with orders_timestamps := prunedTs om now },
        o.mark_rejected "Rate limit exceeded.", false) := by
  unfold OrderManager.validate_order
  rw [hv]
  simp [hc, hr]

theorem validate_order_pos_buy (om : OrderManager) (o : Order) (now : ℚ)
    (hv : o.validate = .ok ())
    (hc : ¬(o.side = .BUY ∧ (o.quantity : ℚ) * o.price > om.capital))
    (hr : (prunedTs om now).length < om.MAX_ORDERS_PER_MIN)
    (hb : o.side = .BUY)
    (hp : dictGet om.positions o.symbol 0 + (o.quantity : ℚ) > om.MAX_POSITION) :
    om.validate_order o now =
      ({ om with orders_timestamps := prunedTs om now },
        o.mark_rejected "Position limit (500) exceeded.", false) := by
  unfold OrderManager.validate_order
  rw [hv]
  have hcap : ¬((o.quantity : ℚ) * o.price > om.capital) := fun h => hc ⟨hb, h⟩
  simp [hcap, Nat.not_le.mpr hr, hb, hp]

theorem validate_order_pos_sell (om : OrderManager) (o : Order) (now : ℚ)
    (hv : o.validate = .ok ())
    (hc : ¬(o.side = .BUY ∧ (o.quantity : ℚ) * o.price > om.capital))
    (hr : (prunedTs om now).length < om.MAX_ORDERS_PER_MIN)
    (hs : o.side = .SELL)
    (hp : dictGet om.positions o.symbol 0 - (o.quantity : ℚ) < -om.MAX_POSITION) :
    om.validate_order o now =
      ({ om with orders_timestamps := prunedTs om now },
        o.mark_rejected "Short position limit (-500) exceeded.", false) := by
  unfold OrderManager.validate_order
  rw [hv]
  have hnb : o.side ≠ .BUY := by rw [hs]; intro h; cases h
  simp [hc, Nat.not_le.mpr hr, hnb, hs, hp]

theorem validate_order_pass (om : OrderManager) (o : Order) (now : ℚ)
    (hv : o.validate = .ok ())
    (hc : ¬(o.side = .BUY ∧ (o.quantity : ℚ) * o.price > om.capital))
    (hr : (prunedTs om now).length < om.MAX_ORDERS_PER_MIN)
    (hpb : ¬(o.side = .BUY ∧ dictGet om.positions o.symbol 0 + (o.quantity : ℚ) > om.MAX_POSITION))
    (hps : ¬(o.side = .SELL ∧ dictGet om.positions o.symbol 0 - (o.quantity : ℚ) < -om.MAX_POSITION)) :
    om.validate_order o now =
      ({ om with orders_timestamps := prunedTs om now ++ [now] }, o, true) := by
  unfold OrderManager.validate_order
  rw [hv]
  simp [hc, Nat.not_le.mpr hr, hpb, hps]

/-- A `true` result can only come from the success branch: the order is
returned unchanged and the timestamp is appended to the pruned window. -/
theorem validate_order_true (om : OrderManager) (o : Order) (now : ℚ)
    (h : (om.validate_order o now).2.2 = true) :
    om.validate_order o now =
      ({ om with orders_timestamps := prunedTs om now ++ [now] }, o, true) := by
  cases hv : o.validate with
  | error e => rw [validate_order_struct om o now e hv] at h; simp at h
  | ok u =>
    cases u
    by_cases hc : o.side = .BUY ∧ (o.quantity : ℚ) * o.price > om.capital
    · rw [validate_order_capital om o now hv hc.1 hc.2] at h; simp at h
    · by_cases hr : om.MAX_ORDERS_PER_MIN ≤ (prunedTs om now).length
      · rw [validate_order_rate om o now hv hc hr] at h; simp at h
      · have hr' : (prunedTs om now).length < om.MAX_ORDERS_PER_MIN := not_le.mp hr
        by_cases hpb : o.side = .BUY ∧
            dictGet om.positions o.symbol 0 + (o.quantity : ℚ) > om.MAX_POSITION
        · rw [validate_order_pos_buy om o now hv hc hr' hpb.1 hpb.2] at h; simp at h
        · by_cases hps : o.side = .SELL ∧
              dictGet om.positions o.symbol 0 - (o.quantity : ℚ) < -om.MAX_POSITION
          · rw [validate_order_pos_sell om o now hv hc hr' hps.1 hps.2] at h; simp at h
          · exact validate_order_pass om o now hv hc hr' hpb hps

/-- `validate_order` only writes `orders_timestamps`: capital, the position
mirror and both limits are unchanged. -/
theorem validate_order_fields (om : OrderManager) (o : Order) (now : ℚ) :
    (om.validate_order o now).1.capital = om.capital ∧
    (om.validate_order o now).1.positions = om.positions ∧
    (om.validate_order o now).1.MAX_ORDERS_PER_MIN = om.MAX_ORDERS_PER_MIN ∧
    (om.validate_order o now).1.MAX_POSITION = om.MAX_POSITION := by
  unfold OrderManager.validate_order
  cases hv : o.validate <;> simp only <;> (try split_ifs) <;> simp

/-! ## Claim theorems -/

/-- C7: the Validator applies its four checks in the fixed order
structural (quantity > 0 and price > 0), capital sufficiency, rate limit,
position limit; the first failing check sets the rejection status and
reason and the remaining checks are skipped; on success the current
timestamp is recorded in the rate-limit window, the order is returned
unchanged (its status stays `NEW`) and the call returns success. -/
theorem c7_fixed_check_order (om : OrderManager) (o : Order) (now : ℚ) :
    (∀ e, o.validate = .error e →
      om.validate_order o now = (om, o.mark_rejected e.msg, false))
    ∧ (o.validate = .ok () → o.side = .BUY → (o.quantity : ℚ) * o.price > om.capital →
      om.validate_order o now = (om, o.mark_rejected "Insufficient capital.", false))
    ∧ (o.validate = .ok () → ¬(o.side = .BUY ∧ (o.quantity : ℚ) * o.price > om.capital) →
      om.MAX_ORDERS_PER_MIN ≤ (prunedTs om now).length →
      om.validate_order o now =
        ({ om with orders_timestamps := prunedTs om now },
          o.mark_rejected "Rate limit exceeded.", false))
    ∧ (o.validate = .ok () → ¬(o.side = .BUY ∧ (o.quantity : ℚ) * o.price > om.capital) →
      (prunedTs om now).length < om.MAX_ORDERS_PER_MIN →
      o.side = .BUY → dictGet om.positions o.symbol 0 + (o.quantity : ℚ) > om.MAX_POSITION →
      om.validate_order o now =
        ({ om with orders_timestamps := prunedTs om now },
          o.mark_rejected "Position limit (500) exceeded.", false))
    ∧ (o.validate = .ok () → ¬(o.side = .BUY ∧ (o.quantity : ℚ) * o.price > om.capital) →
      (prunedTs om now).length < om.MAX_ORDERS_PER_MIN →
      o.side = .SELL → dictGet om.positions o.symbol 0 - (o.quantity : ℚ) < -om.MAX_POSITION →
      om.validate_order o now =
        ({ om with orders_timestamps := prunedTs om now },
          o.mark_rejected "Short position limit (-500) exceeded.", false))
    ∧ (o.validate = .ok () → ¬(o.side = .BUY ∧ (o.quantity : ℚ) * o.price > om.capital) →
      (prunedTs om now).length < om.MAX_ORDERS_PER_MIN →
      ¬(o.side = .BUY ∧ dictGet om.positions o.symbol 0 + (o.quantity : ℚ) > om.MAX_POSITION) →
      ¬(o.side = .SELL ∧ dictGet om.positions o.symbol 0 - (o.quantity : ℚ) < -om.MAX_POSITION) →
      om.validate_order o now =
        ({ om with orders_timestamps := prunedTs om now ++ [now] }, o, true)) :=
  ⟨fun e he => validate_order_struct om o now e he,
   fun hv hb hc => validate_order_capital om o now hv hb hc,
   fun hv hc hr => validate_order_rate om o now hv hc hr,
   fun hv hc hr hb hp => validate_order_pos_buy om o now hv hc hr hb hp,
   fun hv hc hr hs hp => validate_order_pos_sell om o now hv hc hr hs hp,
   fun hv hc hr hpb hps => validate_order_pass om o now hv hc hr hpb hps⟩

/-- C7 witness: a structurally valid, fully admissible BUY order is
admitted unchanged and its timestamp recorded. -/
theorem c7_fixed_check_order_witness :
    omSmall.validate_order ordBuy10at90 0 =
      ({ omSmall with orders_timestamps := [0] }, ordBuy10at90, true) := by
  have h := (c7_fixed_check_order omSmall ordBuy10at90 0).2.2.2.2.2
  have hv : ordBuy10at90.validate = .ok () := by norm_num [Order.validate, ordBuy10at90]
  have hc : ¬(ordBuy10at90.side = .BUY ∧
      (ordBuy10at90.quantity : ℚ) * ordBuy10at90.price > omSmall.capital) := by
    norm_num [ordBuy10at90, omSmall]
  have hr : (prunedTs omSmall 0).length < omSmall.MAX_ORDERS_PER_MIN := by
    simp [prunedTs, omSmall]
  have hpb : ¬(ordBuy10at90.side = .BUY ∧
      dictGet omSmall.positions ordBuy10at90.symbol 0 + (ordBuy10at90.quantity : ℚ) >
        omSmall.MAX_POSITION) := by
    norm_num [ordBuy10at90, omSmall, dictGet]
  have hps : ¬(ordBuy10at90.side = .SELL ∧
      dictGet omSmall.positions ordBuy10at90.symbol 0 - (ordBuy10at90.quantity : ℚ) <
        -omSmall.MAX_POSITION) := by
    rintro ⟨hside, -⟩
    exact absurd hside (by decide)
  have := h hv hc hr hpb hps
  simpa [prunedTs, omSmall] using this

/-- C1 counterexample: with initial capital 1000, a realized BUY fill of
10 at 90 leaves 100 of cash in the account, and the next BUY order costs
500 > 100; the claim then demands a rejection with reason "insufficient
capital", but the Validator admits the order, because its capital check
compares against `OrderManager.capital`, which no fill ever updates. -/
theorem c1_counterexample :
    (pfSmall.update_from_fill omSmall ordBuy10at90 90 10).1.cash = 100
    ∧ (ordBuy5at100.quantity : ℚ) * ordBuy5at100.price >
        (pfSmall.update_from_fill omSmall ordBuy10at90 90 10).1.cash
    ∧ ((pfSmall.update_from_fill omSmall ordBuy10at90 90 10).2.validate_order
        ordBuy5at100 1).2.2 = true := by
  have hupd : pfSmall.update_from_fill omSmall ordBuy10at90 90 10 =
      ({ cash := 100, positions := [("AAPL", { quantity := 10, avg_price := 90 })] },
        { capital := 1000, orders_timestamps := [], MAX_ORDERS_PER_MIN := 50,
          positions := [("AAPL", 10)], MAX_POSITION := 500 }) := by
    norm_num [Portfolio.update_from_fill, pfSmall, omSmall, ordBuy10at90, dictGet, dictSet]
  rw [hupd]
  refine ⟨rfl, by norm_num [ordBuy5at100], ?_⟩
  rw [validate_order_pass _ ordBuy5at100 1 ?_ ?_ ?_ ?_ ?_]
  · norm_num [Order.validate, ordBuy5at100]
  · norm_num [ordBuy5at100]
  · simp [prunedTs]
  · norm_num [ordBuy5at100, dictGet]
  · rintro ⟨hside, -⟩
    exact absurd hside (by decide)

/-- C1 (amended): for every order passing the structural check, a BUY is
rejected with reason "Insufficient capital." if and only if
`quantity * price` exceeds the Validator's `capital` field — which is the
initial capital and is never updated by fills (`update_from_fill` writes
the position mirror but leaves `capital` untouched); SELL orders are never
capital-checked (their validation outcome does not depend on `capital`). -/
theorem c1_capital_check (om : OrderManager) (o : Order) (now : ℚ)
    (hv : o.validate = .ok ()) (hst : o.status = .NEW) :
    (o.side = .BUY →
      (((om.validate_order o now).2.1.status = .REJECTED ∧
        (om.validate_order o now).2.1.reason = "Insufficient capital.") ↔
        (o.quantity : ℚ) * o.price > om.capital))
    ∧ (o.side = .SELL → ∀ c₁ c₂ : ℚ,
        ({ om with capital := c₁ } : OrderManager).validate_order o now =
          (fun r => ({ r.1 with capital := c₁ }, r.2))
            (({ om with capital := c₂ } : OrderManager).validate_order o now))
    ∧ (∀ (p : Portfolio) (fp : ℚ) (fq : ℤ),
        (p.update_from_fill om o fp fq).2.capital = om.capital) := by
  refine ⟨?_, ?_, ?_⟩
  · intro hb
    constructor
    · intro ⟨hstat, hreason⟩
      by_contra hc
      push_neg at hc
      have hc' : ¬(o.side = .BUY ∧ (o.quantity : ℚ) * o.price > om.capital) := by
        rintro ⟨-, h⟩; exact absurd h (not_lt.mpr hc)
      by_cases hr : om.MAX_ORDERS_PER_MIN ≤ (prunedTs om now).length
      · rw [validate_order_rate om o now hv hc' hr] at hreason
        simp [Order.mark_rejected] at hreason
      · have hr' := not_le.mp hr
        by_cases hpb : o.side = .BUY ∧
            dictGet om.positions o.symbol 0 + (o.quantity : ℚ) > om.MAX_POSITION
        · rw [validate_order_pos_buy om o now hv hc' hr' hpb.1 hpb.2] at hreason
          simp [Order.mark_rejected] at hreason
        · have hps : ¬(o.side = .SELL ∧
              dictGet om.positions o.symbol 0 - (o.quantity : ℚ) < -om.MAX_POSITION) := by
            rintro ⟨hs, -⟩; rw [hb] at hs; cases hs
          rw [validate_order_pass om o now hv hc' hr' hpb hps] at hstat
          rw [hst] at hstat
          cases hstat
    · intro hc
      rw [validate_order_capital om o now hv hb hc]
      simp [Order.mark_rejected]
  · intro hs c₁ c₂
    have hnb : o.side ≠ .BUY := by rw [hs]; intro h; cases h
    have hcap : ∀ c : ℚ,
        ¬(o.side = .BUY ∧ (o.quantity : ℚ) * o.price >
          ({ om with capital := c } : OrderManager).capital) := fun _ h => hnb h.1
    have hpb : ∀ c : ℚ, ¬(o.side = .BUY ∧
        dictGet ({ om with capital := c } : OrderManager).positions o.symbol 0 +
          (o.quantity : ℚ) > ({ om with capital := c } : OrderManager).MAX_POSITION) :=
      fun _ h => hnb h.1
    by_cases hr : om.MAX_ORDERS_PER_MIN ≤ (prunedTs om now).length
    · rw [validate_order_rate _ o now hv (hcap c₁) hr,
        validate_order_rate _ o now hv (hcap c₂) hr]
      simp [prunedTs_capital]
    · have hr' : (prunedTs om now).length < om.MAX_ORDERS_PER_MIN := not_le.mp hr
      by_cases hps : o.side = .SELL ∧
          dictGet om.positions o.symbol 0 - (o.quantity : ℚ) < -om.MAX_POSITION
      · rw [validate_order_pos_sell _ o now hv (hcap c₁) hr' hps.1 hps.2,
          validate_order_pos_sell _ o now hv (hcap c₂) hr' hps.1 hps.2]
        simp [prunedTs_capital]
      · rw [validate_order_pass _ o now hv (hcap c₁) hr' (hpb c₁) hps,
          validate_order_pass _ o now hv (hcap c₂) hr' (hpb c₂) hps]
        simp [prunedTs_capital]
  · intro p fp fq
    simp [Portfolio.update_from_fill]

/-- C1 witness: with capital 1000, a BUY of 20 at 90 (cost 1800) is
rejected with reason "Insufficient capital.". -/
theorem c1_capital_check_witness :
    (omSmall.validate_order { symbol := "AAPL", quantity := 20, price := 90 } 0).2.1.status
        = .REJECTED ∧
    (omSmall.validate_order { symbol := "AAPL", quantity := 20, price := 90 } 0).2.1.reason
        = "Insufficient capital." := by
  have h := (c1_capital_check omSmall { symbol := "AAPL", quantity := 20, price := 90 } 0
      (by norm_num [Order.validate]) rfl).1 rfl
  exact h.mpr (by norm_num [omSmall])

/-- C8: with the position bound of 500, a long position of 495 makes an
otherwise admissible BUY for 10 rejected by the position-limit check while
a BUY for 5 (landing exactly on the bound) is admitted; symmetrically a
SELL is rejected exactly when the projected position falls below -500. -/
theorem c8_position_limit :
    ((om495.validate_order ordBuy10at1 0).2.1.status = .REJECTED
      ∧ (om495.validate_order ordBuy10at1 0).2.1.reason = "Position limit (500) exceeded."
      ∧ (om495.validate_order ordBuy10at1 0).2.2 = false)
    ∧ (om495.validate_order ordBuy5at1 0).2.2 = true
    ∧ (∀ (om : OrderManager) (o : Order) (now : ℚ),
        o.validate = .ok () → o.side = .SELL →
        (prunedTs om now).length < om.MAX_ORDERS_PER_MIN →
        (((om.validate_order o now).2.2 = false ∧
          (om.validate_order o now).2.1.reason = "Short position limit (-500) exceeded.") ↔
          dictGet om.positions o.symbol 0 - (o.quantity : ℚ) < -om.MAX_POSITION)) := by
  refine ⟨?_, ?_, ?_⟩
  · rw [validate_order_pos_buy om495 ordBuy10at1 0 ?_ ?_ ?_ ?_ ?_]
    · exact ⟨rfl, rfl, rfl⟩
    · norm_num [Order.validate, ordBuy10at1]
    · norm_num [ordBuy10at1, om495]
    · simp [prunedTs, om495]
    · rfl
    · norm_num [ordBuy10at1, om495, dictGet]
  · rw [validate_order_pass om495 ordBuy5at1 0 ?_ ?_ ?_ ?_ ?_]
    · norm_num [Order.validate, ordBuy5at1]
    · norm_num [ordBuy5at1, om495]
    · simp [prunedTs, om495]
    · norm_num [ordBuy5at1, om495, dictGet]
    · rintro ⟨hside, -⟩
      exact absurd hside (by decide)
  · intro om o now hv hs hr
    have hnb : o.side ≠ .BUY := by rw [hs]; intro h; cases h
    have hcap : ¬(o.side = .BUY ∧ (o.quantity : ℚ) * o.price > om.capital) :=
      fun h => hnb h.1
    have hpb : ¬(o.side = .BUY ∧
        dictGet om.positions o.symbol 0 + (o.quantity : ℚ) > om.MAX_POSITION) :=
      fun h => hnb h.1
    constructor
    · intro ⟨hfalse, hreason⟩
      by_contra hp
      have hps : ¬(o.side = .SELL ∧
          dictGet om.positions o.symbol 0 - (o.quantity : ℚ) < -om.MAX_POSITION) :=
        fun h => hp h.2
      rw [validate_order_pass om o now hv hcap hr hpb hps] at hfalse
      cases hfalse
    · intro hp
      rw [validate_order_pos_sell om o now hv hcap hr hs hp]
      exact ⟨rfl, rfl⟩

/-- C8 witness: a short position of 495 makes a SELL for 10 (projected
-505) rejected by the short-position-limit check. -/
theorem c8_position_limit_witness :
    (omShort495.validate_order ordSell10at1 0).2.2 = false ∧
    (omShort495.validate_order ordSell10at1 0).2.1.reason =
      "Short position limit (-500) exceeded." := by
  have h := (c8_position_limit).2.2 omShort495 ordSell10at1 0
    (by norm_num [Order.validate, ordSell10at1]) rfl
    (by simp [prunedTs, omShort495])
  exact h.mpr (by norm_num [omShort495, ordSell10at1, dictGet])

/-- C2 counterexample: a long position of 5 at basis 100 hit by a single
SELL fill of 10 at 110 flips to -5; the claim demands the blended average
(100*5 + 110*10)/(5 - 10) = -320, but the code leaves the basis at 100. -/
theorem c2_counterexample :
    (dictGet (pfLong5.update_from_fill omBig ordSell10at110 110 10).1.positions
      "AAPL" {}).avg_price = 100
    ∧ ((100 : ℚ) * 5 + 110 * 10) / ((5 : ℚ) - 10) = -320
    ∧ (100 : ℚ) ≠ -320 := by
  refine ⟨?_, by norm_num, by norm_num⟩
  norm_num [Portfolio.update_from_fill, pfLong5, omBig, ordSell10at110, dictGet, dictSet]

/-- C2 (amended): on a fill, the new quantity is the old one adjusted by
the fill in the direction of the side; the cost basis becomes the blend
`(old_basis * old_qty + fill_price * filled_qty) / new_qty` when the new
and old quantities share sign (or the old quantity is zero) and the new
quantity is nonzero; it is reset to zero when the new quantity is exactly
zero; and when a single fill flips the position's sign the basis is left
unchanged (the blended formula is *not* applied, nor a close-then-open
decomposition). -/
theorem c2_cost_basis (p : Portfolio) (om : OrderManager) (o : Order)
    (fp : ℚ) (fq : ℤ) :
    (let pos := dictGet p.positions o.symbol {}
     let nq := if o.side = .BUY then pos.quantity + (fq : ℚ) else pos.quantity - (fq : ℚ)
     let entry := dictGet (p.update_from_fill om o fp fq).1.positions o.symbol {}
     entry.quantity = nq
     ∧ ((0 < nq * pos.quantity ∨ pos.quantity = 0) ∧ nq ≠ 0 →
        entry.avg_price = (pos.avg_price * pos.quantity + fp * (fq : ℚ)) / nq)
     ∧ (nq = 0 → entry.avg_price = 0)
     ∧ (nq * pos.quantity < 0 → entry.avg_price = pos.avg_price)) := by
  have hentry : dictGet (p.update_from_fill om o fp fq).1.positions o.symbol {} =
      { quantity :=
          if o.side = .BUY then (dictGet p.positions o.symbol {}).quantity + (fq : ℚ)
          else (dictGet p.positions o.symbol {}).quantity - (fq : ℚ)
        avg_price :=
          (let pos := dictGet p.positions o.symbol {}
           let nq := if o.side = .BUY then pos.quantity + (fq : ℚ)
                     else pos.quantity - (fq : ℚ)
           if nq * pos.quantity ≥ 0 ∧ nq ≠ 0 then
             (pos.avg_price * pos.quantity + fp * (fq : ℚ)) / nq
           else if nq = 0 then 0
           else pos.avg_price) } := by
    simp only [Portfolio.update_from_fill]
    exact dictGet_dictSet _ _ _ _
  refine ⟨by rw [hentry], ?_, ?_, ?_⟩
  · intro ⟨hsign, hnz⟩
    rw [hentry]
    dsimp only
    set cur := (dictGet p.positions o.symbol ({} : PosEntry)).quantity with hcur
    set nq := if o.side = Side.BUY then cur + (fq : ℚ) else cur - (fq : ℚ) with hnq
    have hge : nq * cur ≥ 0 := by
      rcases hsign with h | h
      · exact le_of_lt h
      · rw [h, mul_zero]
    split_ifs with h₁
    · rfl
    · exact absurd ⟨hge, hnz⟩ h₁
  · intro h0
    rw [hentry]
    dsimp only
    set cur := (dictGet p.positions o.symbol ({} : PosEntry)).quantity with hcur
    set nq := if o.side = Side.BUY then cur + (fq : ℚ) else cur - (fq : ℚ) with hnq
    split_ifs with h₁
    · exact absurd h0 h₁.2
    · rfl
  · intro hneg
    rw [hentry]
    dsimp only
    set cur := (dictGet p.positions o.symbol ({} : PosEntry)).quantity with hcur
    set nq := if o.side = Side.BUY then cur + (fq : ℚ) else cur - (fq : ℚ) with hnq
    have h2 : nq ≠ 0 := by
      intro h0
      rw [h0, zero_mul] at hneg
      exact lt_irrefl 0 hneg
    split_ifs with h₁
    · exact absurd hneg (not_lt.mpr h₁.1)
    · rfl

/-- C2 witness: buying 5 more at 110 onto a long position of 5 at basis
100 blends the basis to (100*5 + 110*5)/10 = 105. -/
theorem c2_cost_basis_witness :
    (dictGet (pfLong5.update_from_fill omBig
      { symbol := "AAPL", quantity := 5, price := 110 } 110 5).1.positions
        "AAPL" {}).avg_price = 105 := by
  have h := (c2_cost_basis pfLong5 omBig
    { symbol := "AAPL", quantity := 5, price := 110 } 110 5).2.1
  have h' := h (by norm_num [pfLong5, dictGet])
  rw [h']
  norm_num [pfLong5, dictGet]

theorem simulate_fail (me : MatchingEngine) (o : Order) (d : Draws)
    (h : d.fail_draw < 2 / 100) :
    me.simulate_execution o d =
      .error (.executionError "Simulated execution failure (2% chance)") := by
  simp [MatchingEngine.simulate_execution, h]

theorem simulate_full (me : MatchingEngine) (o : Order) (d : Draws)
    (h1 : ¬(d.fail_draw < 2 / 100)) (h2 : d.full_draw < 95 / 100) :
    me.simulate_execution o d = .ok (me.fillResult o o.quantity d) := by
  simp [MatchingEngine.simulate_execution, h1, h2]

theorem simulate_partfill (me : MatchingEngine) (o : Order) (d : Draws)
    (h1 : ¬(d.fail_draw < 2 / 100)) (h2 : ¬(d.full_draw < 95 / 100))
    (h3 : d.liq_draw < 4 / 100) (hq : 2 ≤ o.quantity) :
    me.simulate_execution o d =
      .ok (me.fillResult o (1 + (d.randint_draw : ℤ) % (o.quantity - 1)) d) := by
  have hne : ¬(o.quantity - 1 < 1) := by omega
  have harith : o.quantity - 1 - 1 + 1 = o.quantity - 1 := by ring
  simp [MatchingEngine.simulate_execution, pyRandint, h1, h2, h3, hne, harith]

theorem simulate_partfill_err (me : MatchingEngine) (o : Order) (d : Draws)
    (h1 : ¬(d.fail_draw < 2 / 100)) (h2 : ¬(d.full_draw < 95 / 100))
    (h3 : d.liq_draw < 4 / 100) (hq : o.quantity = 1) :
    me.simulate_execution o d = .error (.valueError "empty range for randrange") := by
  simp [MatchingEngine.simulate_execution, pyRandint, h1, h2, h3, hq]

theorem simulate_cancel (me : MatchingEngine) (o : Order) (d : Draws)
    (h1 : ¬(d.fail_draw < 2 / 100)) (h2 : ¬(d.full_draw < 95 / 100))
    (h3 : ¬(d.liq_draw < 4 / 100)) :
    me.simulate_execution o d = .ok (0, 0, o.mark_rejected "Canceled/No liquidity.") := by
  simp [MatchingEngine.simulate_execution, h1, h2, h3]

theorem fillResult_pos (me : MatchingEngine) (o : Order) (q : ℤ) (d : Draws)
    (h : 0 < q) :
    me.fillResult o q d =
      (round2 (o.price * (1 + me.slippage_factor * d.gauss_draw)), q,
        o.mark_filled q (o.price * (1 + me.slippage_factor * d.gauss_draw))) := by
  simp [MatchingEngine.fillResult, h]

theorem partial_qty_range (q : ℤ) (draw : ℕ) (hq : 2 ≤ q) :
    1 ≤ 1 + (draw : ℤ) % (q - 1) ∧ 1 + (draw : ℤ) % (q - 1) ≤ q - 1 := by
  have h1 : 0 ≤ (draw : ℤ) % (q - 1) := Int.emod_nonneg _ (by omega)
  have h2 : (draw : ℤ) % (q - 1) < q - 1 := Int.emod_lt_of_pos _ (by omega)
  omega

/-- C4 counterexample: for an order of quantity 2 the partial-fill branch
(`random.randint(1, 1)`) fills quantity 1, which is not strictly between 1
and quantity - 1 = 1 — the partial-fill range is inclusive, not strict. -/
theorem c4_counterexample :
    meDef.simulate_execution ordTwo drawsPart = .ok (100, 1, ordTwo.mark_filled 1 100)
    ∧ ¬((1 : ℤ) > 1 ∧ (1 : ℤ) < ordTwo.quantity - 1) := by
  constructor
  · norm_num [meDef, ordTwo, drawsPart, MatchingEngine.simulate_execution, pyRandint,
      MatchingEngine.fillResult, round2, round_eq, Order.mark_filled]
  · rintro ⟨h, -⟩
    exact lt_irrefl 1 h

/-- C4 (amended): for every order of quantity at least 2, one call to the
Execution Simulator with its random draws as inputs yields exactly one of:
an execution failure (failure draw < 0.02) leaving the order unfilled; a
full fill of the whole quantity (next draw < 0.95); a partial fill of a
uniformly random quantity in the inclusive range 1 to quantity-1
(independent draw < 0.04); or a no-liquidity cancellation returning filled
quantity 0 with terminal rejected status.  Every reported fill price is
the requested price times (1 + slippage), rounded to 2 decimal places. -/
theorem c4_execution_outcomes (me : MatchingEngine) (o : Order) (d : Draws)
    (hq : 2 ≤ o.quantity) :
    (d.fail_draw < 2 / 100 →
      me.simulate_execution o d =
        .error (.executionError "Simulated execution failure (2% chance)"))
    ∧ (¬(d.fail_draw < 2 / 100) → d.full_draw < 95 / 100 →
      me.simulate_execution o d =
        .ok (round2 (o.price * (1 + me.slippage_factor * d.gauss_draw)), o.quantity,
          o.mark_filled o.quantity (o.price * (1 + me.slippage_factor * d.gauss_draw))))
    ∧ (¬(d.fail_draw < 2 / 100) → ¬(d.full_draw < 95 / 100) → d.liq_draw < 4 / 100 →
      ∃ k : ℤ, 1 ≤ k ∧ k ≤ o.quantity - 1 ∧
        me.simulate_execution o d =
          .ok (round2 (o.price * (1 + me.slippage_factor * d.gauss_draw)), k,
            o.mark_filled k (o.price * (1 + me.slippage_factor * d.gauss_draw))))
    ∧ (¬(d.fail_draw < 2 / 100) → ¬(d.full_draw < 95 / 100) → ¬(d.liq_draw < 4 / 100) →
      me.simulate_execution o d = .ok (0, 0, o.mark_rejected "Canceled/No liquidity.")
      ∧ (o.mark_rejected "Canceled/No liquidity.").status = .REJECTED
      ∧ (o.mark_rejected "Canceled/No liquidity.").filled_quantity = o.filled_quantity) := by
  refine ⟨fun h => simulate_fail me o d h, ?_, ?_, ?_⟩
  · intro h1 h2
    rw [simulate_full me o d h1 h2, fillResult_pos me o o.quantity d (by omega)]
  · intro h1 h2 h3
    obtain ⟨hk1, hk2⟩ := partial_qty_range o.quantity d.randint_draw hq
    refine ⟨1 + (d.randint_draw : ℤ) % (o.quantity - 1), hk1, hk2, ?_⟩
    rw [simulate_partfill me o d h1 h2 h3 hq,
      fillResult_pos me o (1 + (d.randint_draw : ℤ) % (o.quantity - 1)) d (by omega)]
  · intro h1 h2 h3
    exact ⟨simulate_cancel me o d h1 h2 h3, rfl, rfl⟩

/-- C4 witness: a full fill of 10 at price 90 with zero slippage reports
fill price 90. -/
theorem c4_execution_outcomes_witness :
    meDef.simulate_execution ordBuy10at90 drawsFull =
      .ok (90, 10, ordBuy10at90.mark_filled 10 90) := by
  have h := (c4_execution_outcomes meDef ordBuy10at90 drawsFull
    (by norm_num [ordBuy10at90])).2.1 (by norm_num [drawsFull]) (by norm_num [drawsFull])
  rw [h]
  norm_num [meDef, drawsFull, ordBuy10at90, round2, round_eq, Order.mark_filled]

/-- C10: for an admitted order of quantity exactly 1, draws selecting the
partial-fill branch make `simulate_execution` raise the `ValueError` of
`random.randint(1, 0)` — neither an `ExecutionError` nor a no-liquidity
cancellation — and the pipeline's blanket handler marks the order FAILED
with an "Unknown Error" reason. -/
theorem c10_partial_quantity_one (me : MatchingEngine) (o : Order) (d : Draws)
    (hq : o.quantity = 1)
    (h1 : ¬(d.fail_draw < 2 / 100)) (h2 : ¬(d.full_draw < 95 / 100))
    (h3 : d.liq_draw < 4 / 100) :
    me.simulate_execution o d = .error (.valueError "empty range for randrange")
    ∧ (∀ msg, (PyExc.valueError "empty range for randrange") ≠ PyExc.executionError msg)
    ∧ me.simulate_execution o d ≠ .ok (0, 0, o.mark_rejected "Canceled/No liquidity.")
    ∧ (∀ (gw : GatewayLog) (om om₁ : OrderManager) (pf : Portfolio) (now : ℚ) (o₁ : Order),
        om.validate_order o now = (om₁, o₁, true) →
        processSignal gw om pf me now (.ok o) d =
          (gw ++ [o.mark_failed ("Unknown Error: " ++ "empty range for randrange")], om₁, pf)
        ∧ (o.mark_failed ("Unknown Error: " ++ "empty range for randrange")).status = .FAILED) := by
  have hsim := simulate_partfill_err me o d h1 h2 h3 hq
  refine ⟨hsim, ?_, ?_, ?_⟩
  · intro msg h
    cases h
  · rw [hsim]
    intro h
    cases h
  intro gw om om₁ pf now o₁ hv
  have htrue : (om.validate_order o now).2.2 = true := by rw [hv]
  have hform := validate_order_true om o now htrue
  rw [hv] at hform
  have ho : o₁ = o := congrArg (fun r => r.2.1) hform
  refine ⟨?_, rfl⟩
  simp only [processSignal, hv, ho, hsim, logOrder, PyExc.msg]
  simp

/-- C10 witness: quantity-1 order through the pipeline under partial-fill
draws ends FAILED with the "Unknown Error" reason and is logged. -/
theorem c10_partial_quantity_one_witness :
    processSignal [] omBig pfSmall meDef 0 (.ok ordUnit) drawsPart =
      ([ordUnit.mark_failed ("Unknown Error: " ++ "empty range for randrange")],
        { omBig with orders_timestamps := [0] }, pfSmall) := by
  have hv : omBig.validate_order ordUnit 0 =
      ({ omBig with orders_timestamps := [0] }, ordUnit, true) := by
    have h := validate_order_pass omBig ordUnit 0 (by norm_num [Order.validate, ordUnit])
      (by norm_num [ordUnit, omBig]) (by simp [prunedTs, omBig])
      (by norm_num [ordUnit, omBig, dictGet])
      (by rintro ⟨hside, -⟩; exact absurd hside (by decide))
    simpa [prunedTs, omBig] using h
  have h := (c10_partial_quantity_one meDef ordUnit drawsPart rfl
    (by norm_num [drawsPart]) (by norm_num [drawsPart]) (by norm_num [drawsPart])).2.2.2
    [] omBig { omBig with orders_timestamps := [0] } pfSmall 0 ordUnit hv
  simpa using h.1

/-- C9 counterexample: a fault raised during order construction is caught
(the run continues and the state is untouched) but, `order` being still
`None`, the `if order:` guard skips `mark_failed` and `log_order`: the
audit log stays empty, contradicting "the order is still logged". -/
theorem c9_counterexample :
    processSignal [] omSmall pfSmall meDef 0 (.error (.otherError "boom")) drawsFull =
      ([], omSmall, pfSmall) := rfl

/-- C9 (amended): faults are caught at per-order granularity and never
abort the run: a fault during order construction is swallowed with no
state change and nothing marked or logged (the order does not exist); an
`ExecutionError` during execution marks the admitted order FAILED with the
exception message and logs it; any other exception during execution marks
it FAILED with an "Unknown Error: "-prefixed reason and logs it; and the
per-signal loop always continues with the next signal. -/
theorem c9_fault_isolation (gw : GatewayLog) (om : OrderManager) (pf : Portfolio)
    (me : MatchingEngine) (now : ℚ) (d : Draws) :
    (∀ e, processSignal gw om pf me now (.error e) d = (gw, om, pf))
    ∧ (∀ o om₁ o₁ msg, om.validate_order o now = (om₁, o₁, true) →
        me.simulate_execution o₁ d = .error (.executionError msg) →
        processSignal gw om pf me now (.ok o) d = (gw ++ [o₁.mark_failed msg], om₁, pf)
        ∧ (o₁.mark_failed msg).status = .FAILED ∧ (o₁.mark_failed msg).reason = msg)
    ∧ (∀ o om₁ o₁ e, om.validate_order o now = (om₁, o₁, true) →
        me.simulate_execution o₁ d = .error e → (∀ m, e ≠ .executionError m) →
        processSignal gw om pf me now (.ok o) d =
          (gw ++ [o₁.mark_failed ("Unknown Error: " ++ e.msg)], om₁, pf)
        ∧ (o₁.mark_failed ("Unknown Error: " ++ e.msg)).status = .FAILED)
    ∧ (∀ x rest, processSignals gw om pf me now (x :: rest) =
        (fun r => processSignals r.1 r.2.1 r.2.2 me now rest)
          (processSignal gw om pf me now x.1 x.2)) := by
  refine ⟨fun e => rfl, ?_, ?_, ?_⟩
  · intro o om₁ o₁ msg hv hsim
    refine ⟨?_, rfl, rfl⟩
    simp only [processSignal, hv, hsim, logOrder]
    simp
  · intro o om₁ o₁ e hv hsim hne
    refine ⟨?_, rfl⟩
    cases e with
    | orderError m =>
      simp only [processSignal, hv, hsim, logOrder, PyExc.msg]
      simp
    | executionError m => exact absurd rfl (hne m)
    | valueError m =>
      simp only [processSignal, hv, hsim, logOrder, PyExc.msg]
      simp
    | otherError m =>
      simp only [processSignal, hv, hsim, logOrder, PyExc.msg]
      simp
  · intro x rest
    rfl

/-- C9 witness: an `ExecutionError` raised by the simulator leaves the
order FAILED with the simulator's message and logged, with portfolio
untouched. -/
theorem c9_fault_isolation_witness :
    processSignal [] omBig pfSmall meDef 0 (.ok ordBuy10at90) drawsFail =
      ([ordBuy10at90.mark_failed "Simulated execution failure (2% chance)"],
        { omBig with orders_timestamps := [0] }, pfSmall)
    ∧ (ordBuy10at90.mark_failed "Simulated execution failure (2% chance)").status
        = .FAILED := by
  have hv : omBig.validate_order ordBuy10at90 0 =
      ({ omBig with orders_timestamps := [0] }, ordBuy10at90, true) := by
    have h := validate_order_pass omBig ordBuy10at90 0
      (by norm_num [Order.validate, ordBuy10at90])
      (by norm_num [ordBuy10at90, omBig]) (by simp [prunedTs, omBig])
      (by norm_num [ordBuy10at90, omBig, dictGet])
      (by rintro ⟨hside, -⟩; exact absurd hside (by decide))
    simpa [prunedTs, omBig] using h
  have hsim : meDef.simulate_execution ordBuy10at90 drawsFail =
      .error (.executionError "Simulated execution failure (2% chance)") :=
    simulate_fail meDef ordBuy10at90 drawsFail (by norm_num [drawsFail])
  have h := (c9_fault_isolation [] omBig pfSmall meDef 0 drawsFail).2.1 ordBuy10at90
    { omBig with orders_timestamps := [0] } ordBuy10at90
    "Simulated execution failure (2% chance)" hv hsim
  exact ⟨by simpa using h.1, h.2.1⟩

theorem update_from_fill_cash (p : Portfolio) (om : OrderManager) (o : Order)
    (fp : ℚ) (fq : ℤ) :
    (p.update_from_fill om o fp fq).1.cash =
      if o.side = .SELL then p.cash + (fq : ℚ) * fp else p.cash - (fq : ℚ) * fp := by
  simp [Portfolio.update_from_fill]

theorem buyTotal_cons (f : Order × ℚ × ℤ) (rest : List (Order × ℚ × ℤ)) :
    buyTotal (f :: rest) =
      (if f.1.side = .BUY then (f.2.2 : ℚ) * f.2.1 else 0) + buyTotal rest := by
  simp [buyTotal]

theorem sellTotal_cons (f : Order × ℚ × ℤ) (rest : List (Order × ℚ × ℤ)) :
    sellTotal (f :: rest) =
      (if f.1.side = .SELL then (f.2.2 : ℚ) * f.2.1 else 0) + sellTotal rest := by
  simp [sellTotal]

/-- C6: over every sequence of realized fills the Accountant's cash is
exactly the starting cash minus the BUY costs plus the SELL proceeds; and
one pass of the per-signal pipeline either leaves the portfolio untouched
(rejection, execution failure, unknown exception, or zero-quantity
no-liquidity cancellation) or produces exactly the portfolio of a single
`update_from_fill` with a positive filled quantity — cash changes through
no other operation. -/
theorem c6_cash_conservation :
    (∀ (p : Portfolio) (om : OrderManager) (fills : List (Order × ℚ × ℤ)),
      (applyPortfolioFills p om fills).1.cash = p.cash - buyTotal fills + sellTotal fills)
    ∧ (∀ (gw : GatewayLog) (om : OrderManager) (pf : Portfolio) (me : MatchingEngine)
        (now : ℚ) (c : Except PyExc Order) (d : Draws),
        (processSignal gw om pf me now c d).2.2 = pf
        ∨ ∃ (om' : OrderManager) (o : Order) (fp : ℚ) (fq : ℤ), 0 < fq ∧
          (processSignal gw om pf me now c d).2.2 = (pf.update_from_fill om' o fp fq).1) := by
  constructor
  · intro p om fills
    induction fills generalizing p om with
    | nil => simp [applyPortfolioFills, buyTotal, sellTotal]
    | cons f rest ih =>
      obtain ⟨o, fp, fq⟩ := f
      show (applyPortfolioFills (p.update_from_fill om o fp fq).1
          (p.update_from_fill om o fp fq).2 rest).1.cash = _
      rw [ih, buyTotal_cons, sellTotal_cons, update_from_fill_cash]
      cases hos : o.side <;> simp [hos] <;> ring
  · intro gw om pf me now c d
    cases c with
    | error e => exact Or.inl rfl
    | ok o =>
      rcases hv : om.validate_order o now with ⟨om₁, o₁, ok⟩
      cases ok with
      | false =>
        left
        simp only [processSignal, hv]
        rfl
      | true =>
        cases hsim : me.simulate_execution o₁ d with
        | error e =>
          cases e <;> left <;> (simp only [processSignal, hv, hsim]; rfl)
        | ok r =>
          obtain ⟨fp, fq, o₂⟩ := r
          by_cases hfq : 0 < fq
          · right
            refine ⟨om₁, o₂, fp, fq, hfq, ?_⟩
            simp only [processSignal, hv, hsim]
            simp [hfq]
          · left
            simp only [processSignal, hv, hsim]
            simp [hfq]

theorem applyFills_aux : ∀ (fills : List (ℤ × ℚ)) (o : Order),
    o.filled_quantity ≤ o.quantity →
    o.status = (if o.filled_quantity = o.quantity then OrderStatus.FILLED
      else OrderStatus.PENDING) →
    validFillsB o fills = true →
    (applyFills o fills).filled_quantity ≤ o.quantity
    ∧ (applyFills o fills).status =
        (if (applyFills o fills).filled_quantity = o.quantity then OrderStatus.FILLED
         else OrderStatus.PENDING) := by
  intro fills
  induction fills with
  | nil => intro o h1 h2 _; exact ⟨h1, h2⟩
  | cons f rest ih =>
    intro o h1 h2 hv
    obtain ⟨q, pr⟩ := f
    simp only [validFillsB, Bool.and_eq_true, decide_eq_true_eq] at hv
    obtain ⟨⟨hq1, hq2⟩, hrest⟩ := hv
    have hstep1 : (o.mark_filled q pr).filled_quantity ≤ (o.mark_filled q pr).quantity := by
      simp only [Order.mark_filled]
      omega
    have hstep2 : (o.mark_filled q pr).status =
        (if (o.mark_filled q pr).filled_quantity = (o.mark_filled q pr).quantity
         then OrderStatus.FILLED else OrderStatus.PENDING) := by
      simp [Order.mark_filled]
    have h := ih (o.mark_filled q pr) hstep1 hstep2 hrest
    simpa [applyFills, Order.mark_filled] using h

/-- C5: starting from a freshly created order (status NEW, nothing filled,
positive quantity), after any admissible sequence of fill operations the
filled quantity never exceeds the quantity, the status is FILLED exactly
when the filled quantity equals the quantity, and after at least one fill
the status is FILLED or PENDING according to that same test (fills
accumulate). -/
theorem c5_fill_invariant (o : Order) (fills : List (ℤ × ℚ))
    (hst : o.status = .NEW) (hf0 : o.filled_quantity = 0) (hq : 0 < o.quantity)
    (hv : validFillsB o fills = true) :
    (applyFills o fills).filled_quantity ≤ o.quantity
    ∧ ((applyFills o fills).status = .FILLED ↔
        (applyFills o fills).filled_quantity = o.quantity)
    ∧ (fills ≠ [] →
        (applyFills o fills).status =
          (if (applyFills o fills).filled_quantity = o.quantity then OrderStatus.FILLED
           else OrderStatus.PENDING)) := by
  cases fills with
  | nil =>
    refine ⟨by show o.filled_quantity ≤ o.quantity; omega, ?_, fun h => absurd rfl h⟩
    show o.status = .FILLED ↔ o.filled_quantity = o.quantity
    rw [hst, hf0]
    constructor
    · intro h; cases h
    · intro h; omega
  | cons f rest =>
    obtain ⟨q, pr⟩ := f
    simp only [validFillsB, Bool.and_eq_true, decide_eq_true_eq] at hv
    obtain ⟨⟨hq1, hq2⟩, hrest⟩ := hv
    have hstep1 : (o.mark_filled q pr).filled_quantity ≤ (o.mark_filled q pr).quantity := by
      simp only [Order.mark_filled]
      omega
    have hstep2 : (o.mark_filled q pr).status =
        (if (o.mark_filled q pr).filled_quantity = (o.mark_filled q pr).quantity
         then OrderStatus.FILLED else OrderStatus.PENDING) := by
      simp [Order.mark_filled]
    obtain ⟨ha, hb⟩ := applyFills_aux rest (o.mark_filled q pr) hstep1 hstep2 hrest
    rw [show (o.mark_filled q pr).quantity = o.quantity from rfl] at ha hb
    have hunfold : applyFills o ((q, pr) :: rest) = applyFills (o.mark_filled q pr) rest := rfl
    rw [hunfold]
    refine ⟨ha, ?_, fun _ => hb⟩
    rw [hb]
    split_ifs with hEq
    · exact ⟨fun _ => hEq, fun _ => rfl⟩
    · constructor
      · intro h; cases h
      · intro h; exact absurd h hEq

/-- C5 witness: two accumulating fills of 4 and 6 on a quantity-10 order
reach exactly the quantity and the FILLED status. -/
theorem c5_fill_invariant_witness :
    (applyFills ordBuy10at90 [(4, 100), (6, 99)]).filled_quantity ≤ ordBuy10at90.quantity
    ∧ ((applyFills ordBuy10at90 [(4, 100), (6, 99)]).status = .FILLED ↔
        (applyFills ordBuy10at90 [(4, 100), (6, 99)]).filled_quantity
          = ordBuy10at90.quantity) := by
  have h := c5_fill_invariant ordBuy10at90 [(4, 100), (6, 99)] rfl rfl (by decide) (by decide)
  exact ⟨h.1, h.2.1⟩

theorem dropWhile_eq_self_of_none (l : List ℚ) (c : ℚ) (h : ∀ t ∈ l, ¬(t < c)) :
    l.dropWhile (fun t => decide (t < c)) = l := by
  cases l with
  | nil => rfl
  | cons a as =>
    have ha : ¬(a < c) := h a (List.mem_cons_self a as)
    rw [List.dropWhile_cons]
    simp [ha]

theorem dropWhile_eq_nil_of_all (l : List ℚ) (c : ℚ) (h : ∀ t ∈ l, t < c) :
    l.dropWhile (fun t => decide (t < c)) = [] := by
  induction l with
  | nil => rfl
  | cons a as ih =>
    have ha : a < c := h a (List.mem_cons_self a as)
    rw [List.dropWhile_cons, if_pos (decide_eq_true ha)]
    exact ih (fun t ht => h t (List.mem_cons_of_mem a ht))

theorem prunedTs_eq_self (om : OrderManager) (now : ℚ)
    (h : ∀ t ∈ om.orders_timestamps, ¬(t < now - 60)) :
    prunedTs om now = om.orders_timestamps :=
  dropWhile_eq_self_of_none om.orders_timestamps (now - 60) h

theorem prunedTs_eq_nil (om : OrderManager) (now : ℚ)
    (h : ∀ t ∈ om.orders_timestamps, t < now - 60) :
    prunedTs om now = [] :=
  dropWhile_eq_nil_of_all om.orders_timestamps (now - 60) h

theorem validate_order_pass_of (om : OrderManager) (o : Order) (now : ℚ)
    (hp : passesNonRate om o)
    (hr : (prunedTs om now).length < om.MAX_ORDERS_PER_MIN) :
    om.validate_order o now =
      ({ om with orders_timestamps := prunedTs om now ++ [now] }, o, true) :=
  validate_order_pass om o now hp.1 hp.2.1 hr hp.2.2.1 hp.2.2.2

theorem submitAll_cons (om : OrderManager) (o : Order) (t : ℚ)
    (rest : List (Order × ℚ)) :
    submitAll om ((o, t) :: rest) =
      ((submitAll (om.validate_order o t).1 rest).1,
        ((om.validate_order o t).2.1, (om.validate_order o t).2.2) ::
          (submitAll (om.validate_order o t).1 rest).2) := by
  rcases hv : om.validate_order o t with ⟨om', o', ok⟩
  rcases hs : submitAll om' rest with ⟨omf, results⟩
  simp [submitAll, hv, hs]

theorem submitAll_append (xs : List (Order × ℚ)) (ys : List (Order × ℚ))
    (om : OrderManager) :
    submitAll om (xs ++ ys) =
      ((submitAll (submitAll om xs).1 ys).1,
        (submitAll om xs).2 ++ (submitAll (submitAll om xs).1 ys).2) := by
  induction xs generalizing om with
  | nil => simp [submitAll]
  | cons x rest ih =>
    obtain ⟨o, t⟩ := x
    rw [List.cons_append, submitAll_cons, submitAll_cons, ih]
    simp

/-- Submitting a batch of orders that all pass the non-rate checks, whose
timestamps all lie in one sub-minute window starting no earlier than every
already recorded timestamp, admits every order (no pruning occurs) while
the window has room. -/
theorem submitAll_admits (os : List (Order × ℚ)) (om : OrderManager) (T : ℚ)
    (hpass : ∀ p ∈ os, passesNonRate om p.1)
    (hwin : ∀ p ∈ os, T ≤ p.2 ∧ p.2 < T + 60)
    (hold : ∀ t ∈ om.orders_timestamps, T ≤ t)
    (hroom : om.orders_timestamps.length + os.length ≤ om.MAX_ORDERS_PER_MIN) :
    submitAll om os =
      ({ om with orders_timestamps :=
          om.orders_timestamps ++ os.map (fun p => p.2) },
        os.map (fun p => (p.1, true))) := by
  induction os generalizing om with
  | nil => simp [submitAll]
  | cons x rest ih =>
    obtain ⟨o, t⟩ := x
    have hwx := hwin (o, t) (List.mem_cons_self _ _)
    have hprune : prunedTs om t = om.orders_timestamps := by
      refine prunedTs_eq_self om t (fun x hx => ?_)
      have hTx := hold x hx
      simp only [not_lt]
      linarith [hwx.2]
    have hlen : (prunedTs om t).length < om.MAX_ORDERS_PER_MIN := by
      rw [hprune]
      simp only [List.length_cons] at hroom
      omega
    have hvstep : om.validate_order o t =
        ({ om with orders_timestamps := om.orders_timestamps ++ [t] }, o, true) := by
      rw [validate_order_pass_of om o t (hpass (o, t) (List.mem_cons_self _ _)) hlen, hprune]
    rw [submitAll_cons, hvstep]
    have hrec := ih { om with orders_timestamps := om.orders_timestamps ++ [t] }
      (fun p hp => hpass p (List.mem_cons_of_mem _ hp))
      (fun p hp => hwin p (List.mem_cons_of_mem _ hp))
      (by
        intro x hx
        rcases List.mem_append.mp hx with h | h
        · exact hold x h
        · rw [List.mem_singleton.mp h]; exact hwx.1)
      (by
        simp only [List.length_append, List.length_cons, List.length_nil] at hroom ⊢
        omega)
    rw [hrec]
    simp [List.append_assoc]

/-- C3: starting from a fresh Validator with the default ceiling of 50, a
sequence of 51 structurally valid, capital- and position-admissible orders
whose timestamps all lie within one sub-minute window has its first 50
orders admitted and the 51st rejected with reason "Rate limit exceeded.";
and at any later time more than 60 seconds after every submission of that
minute an admissible order is admitted again. -/
theorem c3_rate_limit (first50 : List (Order × ℚ)) (o51 : Order) (t51 : ℚ)
    (om : OrderManager) (T : ℚ) (o' : Order) (now' : ℚ)
    (hts : om.orders_timestamps = [])
    (hmax : om.MAX_ORDERS_PER_MIN = 50)
    (hlen : first50.length = 50)
    (hpass : ∀ p ∈ first50, passesNonRate om p.1)
    (hpass51 : passesNonRate om o51)
    (hwin : ∀ p ∈ first50, T ≤ p.2 ∧ p.2 < T + 60)
    (hwin51 : T ≤ t51 ∧ t51 < T + 60)
    (hpass' : passesNonRate om o')
    (hlate : ∀ t ∈ first50.map (fun p => p.2), t + 60 < now') :
    (submitAll om (first50 ++ [(o51, t51)])).2 =
      first50.map (fun p => (p.1, true)) ++
        [(o51.mark_rejected "Rate limit exceeded.", false)]
    ∧ ((submitAll om (first50 ++ [(o51, t51)])).1.validate_order o' now').2.2 = true := by
  have h50 := submitAll_admits first50 om T hpass hwin
    (by rw [hts]; intro x hx; cases hx)
    (by rw [hts, hmax, hlen]; simp)
  set om50 : OrderManager :=
    { om with orders_timestamps := om.orders_timestamps ++ first50.map (fun p => p.2) }
    with hom50
  have hts50 : om50.orders_timestamps = first50.map (fun p => p.2) := by
    rw [hom50]
    simp [hts]
  have hmem50 : ∀ x ∈ om50.orders_timestamps, T ≤ x ∧ x < T + 60 := by
    rw [hts50]
    intro x hx
    obtain ⟨p, hp, hpx⟩ := List.mem_map.mp hx
    rw [← hpx]
    exact hwin p hp
  have hprune51 : prunedTs om50 t51 = om50.orders_timestamps := by
    refine prunedTs_eq_self om50 t51 (fun x hx => ?_)
    simp only [not_lt]
    linarith [(hmem50 x hx).1, hwin51.2]
  have hlen51 : om50.MAX_ORDERS_PER_MIN ≤ (prunedTs om50 t51).length := by
    rw [hprune51, hts50]
    simp [hlen, hmax]
  have hrate : om50.validate_order o51 t51 =
      ({ om50 with orders_timestamps := prunedTs om50 t51 },
        o51.mark_rejected "Rate limit exceeded.", false) :=
    validate_order_rate om50 o51 t51 hpass51.1 hpass51.2.1 hlen51
  have hsplit := submitAll_append first50 [(o51, t51)] om
  rw [h50] at hsplit
  rw [hsplit, submitAll_cons, hrate]
  constructor
  · simp [submitAll]
  · simp only [submitAll]
    have hfin : prunedTs { om50 with orders_timestamps := prunedTs om50 t51 } now' = [] := by
      refine prunedTs_eq_nil _ now' (fun x hx => ?_)
      rw [hprune51, hts50] at hx
      have := hlate x hx
      linarith
    have hpassfin : passesNonRate { om50 with orders_timestamps := prunedTs om50 t51 } o' :=
      hpass'
    have hroomfin : (prunedTs { om50 with orders_timestamps := prunedTs om50 t51 } now').length
        < ({ om50 with orders_timestamps := prunedTs om50 t51 } : OrderManager).MAX_ORDERS_PER_MIN := by
      rw [hfin]
      show 0 < om.MAX_ORDERS_PER_MIN
      rw [hmax]
      norm_num
    rw [validate_order_pass_of _ o' now' hpassfin hroomfin]

/-- C3 witness: 51 unit BUY orders at simulated time 0 against a fresh
manager — 50 admitted, the 51st rejected with "Rate limit exceeded.", and
an identical order at time 61 admitted again. -/
theorem c3_rate_limit_witness :
    (submitAll omBig (List.replicate 50 (ordUnit, 0) ++ [(ordUnit, 0)])).2 =
      List.replicate 50 (ordUnit, true) ++
        [(ordUnit.mark_rejected "Rate limit exceeded.", false)]
    ∧ ((submitAll omBig (List.replicate 50 (ordUnit, 0) ++ [(ordUnit, 0)])).1.validate_order
        ordUnit 61).2.2 = true := by
  have hOrd : passesNonRate omBig ordUnit := by
    refine ⟨by norm_num [Order.validate, ordUnit], ?_, ?_, ?_⟩
    · norm_num [ordUnit, omBig]
    · norm_num [ordUnit, omBig, dictGet]
    · rintro ⟨hside, -⟩
      exact absurd hside (by decide)
  have h := c3_rate_limit (List.replicate 50 (ordUnit, 0)) ordUnit 0 omBig 0 ordUnit 61
    rfl rfl (by simp)
    (fun p hp => by rw [List.eq_of_mem_replicate hp]; exact hOrd)
    hOrd
    (fun p hp => by rw [List.eq_of_mem_replicate hp]; norm_num)
    (by norm_num)
    hOrd
    (by
      intro t ht
      simp only [List.map_replicate] at ht
      rw [List.eq_of_mem_replicate ht]
      norm_num)
  rcases h with ⟨h1, h2⟩
  refine ⟨?_, h2⟩
  rw [h1, List.map_replicate]
